import Mathlib

/-! Leapforce-nl/go_oauth2: token predicates, token exchange, ValidateToken and the
request pipeline.

A shallow embedding of `oauth2.go` and `http.go`.

Conventions of the embedding.

* A Go pointer that may be nil (`*Token`, `*string`, `*int64`, `*time.Time`) is an `Option`.
* `time.Time` is an instant on an integer nanosecond time line and `time.Duration` is a Go
  `int64` number of nanoseconds, so duration arithmetic wraps modulo `2^64`.
* A Go call either returns, panics (nil dereference) or never returns; `Res` records which.
* Everything outside the repository (token store, token endpoint, clock, redirect listener,
  HTTP transport, JSON codec) is an oracle in a `World` or `Env` record; every call
  consults it at a fresh tick, so consecutive calls may answer differently.
-/

set_option autoImplicit false

namespace GoOAuth2

/-! ## Machine integers and time -/

/-- Two's complement reading of an integer as a Go `int64`. -/
def wrap64 (x : Int) : Int := (x + 2 ^ 63) % 2 ^ 64 - 2 ^ 63

/-- Instants (`time.Time`), in nanoseconds on an unbounded time line. -/
abbrev Time := Int

/-- The Go constant `time.Second`, in nanoseconds. -/
def Second : Int := 1000000000

/-- Go `int64` multiplication of two durations or factors. -/
def mul64 (a b : Int) : Int := wrap64 (a * b)

/-! ## Token (oauth2.go) -/

/-- The `Token` struct of oauth2.go; every field is a Go pointer. -/
structure Token where
  AccessToken : Option String
  Scope : Option String
  TokenType : Option String
  ExpiresIn : Option Int
  RefreshToken : Option String
  Expiry : Option Time
deriving DecidableEq, Repr

/-- The zero `Token` value (`Token{}` and `new(Token)`). -/
def Token.zero : Token :=
  { AccessToken := none, Scope := none, TokenType := none, ExpiresIn := none,
    RefreshToken := none, Expiry := none }

/-- The method `(t *Token) Useable()`; the receiver may be nil. -/
def Token.Useable : Option Token → Bool
  | none => false
  | some t =>
    match t.AccessToken with
    | none => false
    | some a =>
      if a = "" then
        match t.RefreshToken with
        | none => false
        | some r => if r = "" then false else true
      else true

/-- The method `(t *Token) Refreshable()`; the receiver may be nil. -/
def Token.Refreshable : Option Token → Bool
  | none => false
  | some t =>
    match t.RefreshToken with
    | none => false
    | some r => if r = "" then false else true

/-- Result of a Go call that touches no state: a returned value or a run-time panic. -/
inductive Pure (α : Type) where
  | ret (a : α)
  | panic
deriving DecidableEq, Repr

/-- The method `(t *Token) IsExpired()`, with the reading of `time.Now()` as an argument.
The pair is Go's `(bool, error)`; `t.Expiry.Add` dereferences `t.Expiry`. -/
def Token.IsExpired (t : Option Token) (now : Time) : Pure (Bool × Option String) :=
  if !Token.Useable t then
    .ret (true, some "Token is not valid.")
  else
    match t with
    | none => .panic
    | some tok =>
      match tok.Expiry with
      | none => .panic
      | some E =>
        if E + mul64 (-60) Second < now then .ret (true, none) else .ret (false, none)

/-- Usability as the specification words it: the token is present and has a non-empty
access token or a non-empty refresh token. -/
def usableSpec : Option Token → Bool
  | none => false
  | some t =>
    (match t.AccessToken with
     | some a => decide (a ≠ "")
     | none => false) ||
    (match t.RefreshToken with
     | some r => decide (r ≠ "")
     | none => false)

/-! ## The client and its collaborators (oauth2.go) -/

/-- The `ApiError` struct: the error body of the token endpoint. -/
structure ApiError where
  Error : String
  Description : String
deriving DecidableEq, Repr

/-- The `OAuth2` struct: static configuration and the current token. The BigQuery handle
is represented by the store oracle of `World`. -/
structure OAuth2 where
  apiName : String
  clientID : String
  clientSecret : String
  scope : String
  redirectURL : String
  authURL : String
  tokenURL : String
  tokenHttpMethod : String
  Token : Option Token
  isLive : Bool
deriving DecidableEq, Repr

/-- Observable actions on the collaborators, in the order they happen. -/
inductive Ev where
  | load
  | exchange (url : String)
  | save (t : Option Token)
  | alert (msg : String)
  | initToken
deriving DecidableEq, Repr

/-- Answer of the token store to `getTokenFromBigQuery`: the query fails, it has no row, or
it yields a row. -/
inductive LoadAnswer where
  | failed (err : String)
  | done
  | row (t : Token)
deriving DecidableEq, Repr

/-- Answer of the HTTP layer to the token request of `GetToken`: `http.NewRequest` fails,
`httpClient.Do` fails, or a response arrives. `apiError` and `token` are what
`json.Unmarshal` makes of the body as an `ApiError` and as a `Token`. -/
inductive HttpAnswer where
  | newRequestFailed
  | doFailed (err : String)
  | response (status : Int) (apiError : Except String ApiError) (token : Except String Token)

/-- Behaviour of the listener started by `initToken`: `http.ListenAndServe` serves forever,
`http.HandleFunc` panics (pattern registered before), or `ListenAndServe` gives up and
returns; `tok` is the client token at that moment (the redirect handler may have replaced it). -/
inductive InitAnswer where
  | blocks
  | panics
  | returns (tok : Option Token)
deriving DecidableEq, Repr

/-- The collaborators of one client. Each oracle is asked at the current tick. `sprintPtr`
is how `fmt.Sprintf` renders a `*string` under the verb `%s`. -/
structure World where
  load : Nat → LoadAnswer
  http : Nat → HttpAnswer
  now : Nat → Time
  save : Nat → Option String
  init : Nat → InitAnswer
  sprintPtr : Option String → String

/-- Machine state: the client, the number of oracle calls so far, and the action log. -/
structure St where
  oa : OAuth2
  tick : Nat
  log : List Ev
deriving DecidableEq, Repr

/-- One oracle call happened and `evs` were observed. -/
def St.step (s : St) (evs : List Ev) : St :=
  { s with tick := s.tick + 1, log := s.log ++ evs }

/-- The client token is replaced. -/
def St.setToken (s : St) (t : Option Token) : St :=
  { s with oa := { s.oa with Token := t } }

/-- Result of a Go call on the client: it returns a value, panics, or never returns. -/
inductive Res (α : Type) where
  | ret (a : α) (s : St)
  | panic (s : St)
  | blocks (s : St)
deriving DecidableEq, Repr

/-- Sequencing: a panic or a blocked call ends the run. -/
def Res.bind {α β : Type} (r : Res α) (k : α → St → Res β) : Res β :=
  match r with
  | .ret a s => k a s
  | .panic s => .panic s
  | .blocks s => .blocks s

/-- The state a run ends in. -/
def Res.state {α : Type} : Res α → St
  | .ret _ s => s
  | .panic s => s
  | .blocks s => s

/-- The method `initToken`: prints the authorize URL, registers the redirect handler and
serves on port 8080; it returns nil if `ListenAndServe` returns. -/
def initToken (w : World) (s : St) : Res (Option String) :=
  let s1 := s.step [Ev.initToken]
  match w.init s.tick with
  | .blocks => .blocks s1
  | .panics => .panic s1
  | .returns tok => .ret none (s1.setToken tok)

/-- The method `getTokenFromBigQuery`: on a store failure the client token is untouched,
otherwise it is replaced by the row read into a fresh `Token` (left zero without a row). -/
def getTokenFromBigQuery (w : World) (s : St) : Res (Option String) :=
  let s1 := s.step [Ev.load]
  match w.load s.tick with
  | .failed err => .ret (some err) s1
  | .done => .ret none (s1.setToken (some Token.zero))
  | .row t => .ret none (s1.setToken (some t))

/-- The method `saveTokenToBigQuery`: the MERGE job of the client token. -/
def saveTokenToBigQuery (w : World) (s : St) : Res (Option String) :=
  .ret (w.save s.tick) (s.step [Ev.save s.oa.Token])

/-- The status error text of `GetToken`. -/
def statusErrorText (status : Int) (url : String) : String :=
  "Server returned statuscode " ++ toString status ++ ", url: " ++ url

/-- The method `GetToken(url)`. -/
def GetToken (w : World) (url : String) (s : St) : Res (Option String) :=
  let s1 := s.step [Ev.exchange url]
  match w.http s.tick with
  | .newRequestFailed => .panic s1
  | .doFailed err => .ret (some err) s1
  | .response status apiError token =>
    if status < 200 || status > 299 then
      match s1.oa.Token with
      | none => .panic s1
      | some _ =>
        match apiError with
        | .error err => .ret (some err) s1
        | .ok eoError =>
          let message := "Error: " ++ toString status ++ " " ++ eoError.Error ++ " ,  "
            ++ eoError.Description ++ "\n"
          if status = 401 then
            let s2 : St :=
              if s1.oa.isLive then
                { s1 with log := s1.log ++ [Ev.alert (s1.oa.apiName
                    ++ " refreshtoken not valid, login needed to retrieve a new one. Error: "
                    ++ message)] }
              else s1
            (initToken w s2).bind fun _ s3 => .ret (some (statusErrorText status url)) s3
          else
            .ret (some (statusErrorText status url)) s1
    else
      match token with
      | .error err => .ret (some err) s1
      | .ok token =>
        let stamped : Token × St :=
          match token.ExpiresIn with
          | some n => ({ token with Expiry := some (w.now s1.tick + mul64 (wrap64 n) Second) },
                       s1.step [])
          | none => ({ token with Expiry := none }, s1)
        let s2 := stamped.2.setToken (some stamped.1)
        (saveTokenToBigQuery w s2).bind fun err s3 =>
          match err with
          | some e => .ret (some e) s3
          | none => .ret none s3

/-- The URL of the refresh-token grant, as `getTokenFromRefreshToken` formats it. -/
def refreshURL (w : World) (oa : OAuth2) : String :=
  oa.tokenURL ++ "?client_id=" ++ oa.clientID ++ "&client_secret=" ++ oa.clientSecret
    ++ "&refresh_token=" ++ w.sprintPtr ((oa.Token.bind fun t => t.RefreshToken))
    ++ "&grant_type=refresh_token&access_type=offline&prompt=consent"

/-- The method `getTokenFromRefreshToken`; the error of the reload is dropped. -/
def getTokenFromRefreshToken (w : World) (s : St) : Res (Option String) :=
  (getTokenFromBigQuery w s).bind fun _ s1 =>
    if !Token.Refreshable s1.oa.Token then
      initToken w s1
    else
      GetToken w (refreshURL w s1.oa) s1

/-- The method `ValidateToken`. The process-wide mutex is taken on entry and released on
exit; a single run is modelled, so it does not appear. -/
def ValidateToken (w : World) (s : St) : Res (Option String) :=
  let first : Res (Option String) :=
    if !Token.Useable s.oa.Token then
      (getTokenFromRefreshToken w s).bind fun err s1 =>
        match err with
        | some e => .ret (some e) s1
        | none =>
          if !Token.Useable s1.oa.Token then
            let s2 : St :=
              if s1.oa.isLive then
                { s1 with log := s1.log ++
                    [Ev.alert "Refreshtoken not found or empty, login needed to retrieve a new one."] }
              else s1
            initToken w s2
          else .ret none s1
    else .ret none s
  first.bind fun err s3 =>
    match err with
    | some e => .ret (some e) s3
    | none =>
      let s4 := s3.step []
      match Token.IsExpired s3.oa.Token (w.now s3.tick) with
      | .panic => .panic s4
      | .ret (_, some e) => .ret (some e) s4
      | .ret (isExpired, none) =>
        if isExpired then
          (getTokenFromRefreshToken w s4).bind fun err s5 =>
            match err with
            | some e => .ret (some e) s5
            | none => .ret none s5
        else .ret none s4

/-! ## HTTP headers (net/http, as used by http.go) -/

/-- The token characters of a header field name (`validHeaderFieldByte` of net/textproto). -/
def validHeaderFieldByte (c : Char) : Bool :=
  c.isAlphanum ||
    [ '!', '#', '$', '%', '&', Char.ofNat 39, '*', '+', '-', '.', '^', '_', Char.ofNat 96,
      '|', '~' ].contains c

/-- Upper case at the start and after each dash, lower case elsewhere. -/
def canonicalChars : Bool → List Char → List Char
  | _, [] => []
  | upper, c :: rest =>
    let c1 := if upper && c.isLower then c.toUpper
              else if !upper && c.isUpper then c.toLower
              else c
    c1 :: canonicalChars (c1 == '-') rest

/-- The function `textproto.CanonicalMIMEHeaderKey`: a name made of token characters is
put in canonical case, any other string is returned unchanged. -/
def CanonicalMIMEHeaderKey (s : String) : String :=
  if s.data.all validHeaderFieldByte then String.mk (canonicalChars true s.data) else s

/-- The type `http.Header`, a map from header names to value lists, as an association
list. -/
abbrev Header := List (String × List String)

/-- The method `Header.Values`: the values stored under the canonical form of `key`. -/
def Header.Values (h : Header) (key : String) : List String :=
  match h.find? (fun e => e.1 == CanonicalMIMEHeaderKey key) with
  | some e => e.2
  | none => []

/-- The method `Header.Del`. -/
def Header.Del (h : Header) (key : String) : Header :=
  h.filter (fun e => !(e.1 == CanonicalMIMEHeaderKey key))

/-- The method `Header.Set`: the entry of `key` becomes the single value. -/
def Header.Set (h : Header) (key value : String) : Header :=
  Header.Del h key ++ [(CanonicalMIMEHeaderKey key, [value])]

/-- The method `Header.Add`: the value is appended to the entry of `key`. -/
def Header.Add (h : Header) (key value : String) : Header :=
  if h.any (fun e => e.1 == CanonicalMIMEHeaderKey key) then
    h.map (fun e => if e.1 == CanonicalMIMEHeaderKey key then (e.1, e.2 ++ [value]) else e)
  else h ++ [(CanonicalMIMEHeaderKey key, [value])]

/-! ## The request pipeline (http.go) -/

/-- An `http.Request` as the pipeline builds it; `body` is the reader, nil when absent. -/
structure Request where
  method : String
  url : String
  body : Option String
  header : Header
deriving DecidableEq, Repr

/-- An `http.Response`: status code and body (nil when there is none). -/
structure Response where
  StatusCode : Int
  Body : Option String
deriving DecidableEq, Repr

/-- The type `errortools.Error` of the external error library: a message with the request
and the response attached by `SetRequest` and `SetResponse`. -/
structure Error where
  message : Option String
  request : Option Request
  response : Option Response
deriving DecidableEq, Repr

/-- The value `new(errortools.Error)`. -/
def Error.new : Error := { message := none, request := none, response := none }

/-- The function `errortools.ErrorMessage`. -/
def ErrorMessage (msg : String) : Error := { Error.new with message := some msg }

/-- A body model, seen through its two encodings: `json.Marshal` and
`utilities.StructToURL`. -/
structure BodyModel where
  json : Except String String
  form : Except Error String
deriving Repr

/-- A model to decode into; `isPtr` tells whether its dynamic type is a pointer. -/
structure Model where
  isPtr : Bool
deriving DecidableEq, Repr

/-- The `RequestConfig` struct. A model field is `none` when `utilities.IsNil` holds of it;
`NonDefaultHeaders` lists the entries of the header map in the order the `range` loop
visits them. -/
structure RequestConfig where
  URL : String
  BodyModel : Option BodyModel
  ResponseModel : Option Model
  ErrorModel : Option Model
  NonDefaultHeaders : Option Header
  SkipAccessToken : Option Bool
  XWWWFormURLEncoded : Option Bool

/-- What a setter of `errortools.Error` does when its receiver is the nil pointer: it
returns without effect, or it dereferences the receiver. In neither case can it make the
pointer of the caller non-nil. -/
inductive NilReceiver where
  | ignores
  | panics
deriving DecidableEq, Repr

/-- Answer of `oa.ValidateToken()` as http.go calls it: it returns an error (or nil) and
leaves a client token, or it does not return. -/
inductive ValidateAnswer where
  | returns (e : Option Error) (tok : Option Token)
  | panics
  | blocks
deriving DecidableEq, Repr

/-- The collaborators of the pipeline: `http.NewRequest` (an error text when it rejects
method or URL), `ValidateToken`, `utilities.DoWithRetry`, `ioutil.ReadAll`,
`json.Unmarshal` (an error text when decoding fails) and the nil-receiver behaviour of the
error library. -/
structure Env where
  newRequest : String → String → Option String
  validateToken : Option Token → ValidateAnswer
  doWithRetry : Request → Option Response × Option Error
  readAll : Response → Except String String
  unmarshal : String → Option String
  nilReceiver : NilReceiver

/-- Observable actions of the pipeline. -/
inductive PEv where
  | validate
  | send (req : Request)
  | captureInfo (e : Option Error)
deriving DecidableEq, Repr

/-- How a pipeline call ends: with Go's three results, with a panic, or never. -/
inductive Outcome where
  | returned (request : Option Request) (response : Option Response) (e : Option Error)
  | panicked
  | blocked
deriving DecidableEq, Repr

/-- A finished pipeline call: the outcome, the client token afterwards, the actions. -/
structure Run where
  outcome : Outcome
  token : Option Token
  log : List PEv
deriving DecidableEq, Repr

/-- The method `SetMessage` on a possibly nil `*errortools.Error`; `none` is a panic. -/
def SetMessage (nr : NilReceiver) (e : Option Error) (msg : String) : Option (Option Error) :=
  match e with
  | some er => some (some { er with message := some msg })
  | none =>
    match nr with
    | .ignores => some none
    | .panics => none

/-- The `exit:` label of `httpRequestFromReader`. -/
def exitLabel (request : Option Request) (response : Option Response) (e : Option Error) :
    Outcome :=
  match e with
  | some er => .returned request response (some { er with request := request, response := response })
  | none => .returned request response none

/-- The statement `e.SetMessage(msg); goto exit`. -/
def setMessageExit (nr : NilReceiver) (request : Option Request) (response : Option Response)
    (e : Option Error) (msg : String) : Outcome :=
  match SetMessage nr e msg with
  | none => .panicked
  | some e1 => exitLabel request response e1

/-- The method `unmarshalError`. -/
def unmarshalError (env : Env) (response : Option Response) (errorModel : Model) :
    Option Error :=
  match response with
  | none => none
  | some r =>
    if !errorModel.isPtr then
      some (ErrorMessage "Type of errorModel must be a pointer.")
    else
      match env.readAll r with
      | .error err => some (ErrorMessage err)
      | .ok b =>
        match env.unmarshal b with
        | some err => some (ErrorMessage err)
        | none => none

/-- The loop over `*config.NonDefaultHeaders`: delete the old header, add the new ones. -/
def overrule (h : Header) (overrides : Header) : Header :=
  overrides.foldl
    (fun acc kv => kv.2.foldl (fun a value => Header.Add a kv.1 value) (Header.Del acc kv.1)) h

/-- The header block of `httpRequestFromReader`: the default headers on the empty header
of the new request, then the input headers over them. -/
def assembleHeaders (config : RequestConfig) (reader : Option String) : Header :=
  let h0 := Header.Set [] "Accept" "application/json"
  let h1 := if reader.isSome then Header.Set h0 "Content-Type" "application/json" else h0
  match config.NonDefaultHeaders with
  | some overrides => overrule h1 overrides
  | none => h1

/-- The part of `httpRequestFromReader` from the label `tokenSkipped:` on. -/
def tokenSkipped (env : Env) (config : RequestConfig) (request : Request)
    (token : Option Token) (log : List PEv) : Run :=
  let log1 := log ++ [PEv.send request]
  let sent := env.doWithRetry request
  let response := sent.1
  let e : Option Error :=
    match response with
    | some r =>
      if r.StatusCode < 200 || r.StatusCode > 299 then
        let e0 : Error := match sent.2 with
          | some er => er
          | none => Error.new
        some { e0 with message := some ("Server returned statuscode " ++ toString r.StatusCode) }
      else sent.2
    | none => sent.2
  match response with
  | none => { outcome := .panicked, token := token, log := log1 }
  | some r =>
    match r.Body with
    | none => { outcome := exitLabel (some request) response e, token := token, log := log1 }
    | some _ =>
      match e with
      | some _ =>
        let log2 := match config.ErrorModel with
          | some m => log1 ++ [PEv.captureInfo (unmarshalError env response m)]
          | none => log1
        { outcome := exitLabel (some request) response e, token := token, log := log2 }
      | none =>
        match config.ResponseModel with
        | some _ =>
          match env.readAll r with
          | .error err =>
            { outcome := setMessageExit env.nilReceiver (some request) response e err,
              token := token, log := log1 }
          | .ok b =>
            match env.unmarshal b with
            | some err =>
              { outcome := setMessageExit env.nilReceiver (some request) response e err,
                token := token, log := log1 }
            | none =>
              { outcome := exitLabel (some request) response e, token := token, log := log1 }
        | none => { outcome := exitLabel (some request) response e, token := token, log := log1 }

/-- The method `httpRequestFromReader`; `token` is `oa.token` and `reader` the body reader
(nil when absent). -/
def httpRequestFromReader (env : Env) (token : Option Token) (httpMethod : String)
    (config : RequestConfig) (reader : Option String) : Run :=
  match env.newRequest httpMethod config.URL with
  | some err =>
    { outcome := setMessageExit env.nilReceiver none none none err, token := token, log := [] }
  | none =>
    let request : Request :=
      { method := httpMethod, url := config.URL, body := reader,
        header := assembleHeaders config reader }
    if config.SkipAccessToken = some true then
      tokenSkipped env config request token []
    else
      match env.validateToken token with
      | .panics => { outcome := .panicked, token := token, log := [PEv.validate] }
      | .blocks => { outcome := .blocked, token := token, log := [PEv.validate] }
      | .returns e tok =>
        match e with
        | some _ =>
          { outcome := exitLabel (some request) none e, token := tok, log := [PEv.validate] }
        | none =>
          match tok with
          | none =>
            { outcome := setMessageExit env.nilReceiver (some request) none e "No Token.",
              token := tok, log := [PEv.validate] }
          | some t =>
            match t.AccessToken with
            | none =>
              { outcome := setMessageExit env.nilReceiver (some request) none e "No AccessToken.",
                token := tok, log := [PEv.validate] }
            | some accessToken =>
              tokenSkipped env config
                { request with
                  header := Header.Set request.header "Authorization" ("Bearer " ++ accessToken) }
                tok [PEv.validate]

/-- The method `httpRequest`; `config` may be the nil pointer. -/
def httpRequest (env : Env) (token : Option Token) (httpMethod : String)
    (config : Option RequestConfig) : Run :=
  match config with
  | none =>
    { outcome := .returned none none
        (some (ErrorMessage "Request config may not be a nil pointer.")),
      token := token, log := [] }
  | some config =>
    match config.BodyModel with
    | none => httpRequestFromReader env token httpMethod config none
    | some bodyModel =>
      if config.XWWWFormURLEncoded = some true then
        match bodyModel.form with
        | .error e => { outcome := .returned none none (some e), token := token, log := [] }
        | .ok url => httpRequestFromReader env token httpMethod config (some url)
      else
        match bodyModel.json with
        | .error err =>
          { outcome := .returned none none (some (ErrorMessage err)), token := token, log := [] }
        | .ok b => httpRequestFromReader env token httpMethod config (some b)

/-- The method `Get`. -/
def Get (env : Env) (token : Option Token) (config : Option RequestConfig) : Run :=
  httpRequest env token "GET" config

/-- The method `Post`. -/
def Post (env : Env) (token : Option Token) (config : Option RequestConfig) : Run :=
  httpRequest env token "POST" config

/-- The method `Put`. -/
def Put (env : Env) (token : Option Token) (config : Option RequestConfig) : Run :=
  httpRequest env token "PUT" config

/-- The method `Patch`. -/
def Patch (env : Env) (token : Option Token) (config : Option RequestConfig) : Run :=
  httpRequest env token "PATCH" config

/-- The method `Delete`. -/
def Delete (env : Env) (token : Option Token) (config : Option RequestConfig) : Run :=
  httpRequest env token "DELETE" config

/-- The method `HTTP`. -/
def HTTP (env : Env) (token : Option Token) (httpMethod : String)
    (config : Option RequestConfig) : Run :=
  httpRequest env token httpMethod config

/-! ## Concrete tokens, worlds and requests used at concrete inputs -/

/-- A token that has a refresh token and no access token. -/
def refreshOnlyToken : Token :=
  { Token.zero with RefreshToken := some "r1" }

/-- A token with an access token and no expiry, as `GetToken` stores it when the response
has no `expires_in`. -/
def noExpiryToken : Token :=
  { Token.zero with AccessToken := some "abc" }

/-- A client configuration with the given current token. -/
def clientWith (t : Option Token) : OAuth2 :=
  { apiName := "api", clientID := "id", clientSecret := "secret", scope := "",
    redirectURL := "http://localhost:8080/oauth/redirect", authURL := "https://auth.example.com",
    tokenURL := "https://token.example.com", tokenHttpMethod := "POST", Token := t,
    isLive := false }

/-- The initial machine state of a client with the given token. -/
def startWith (t : Option Token) : St :=
  { oa := clientWith t, tick := 0, log := [] }

/-- A world whose token endpoint answers 200 with the given token body at every call, whose
clock always reads `T`, whose store holds `stored` and accepts every save, and whose
listener returns at once leaving the token as `afterInit`. -/
def worldOf (body : Token) (T : Time) (stored : LoadAnswer) (afterInit : Option Token) : World :=
  { load := fun _ => stored,
    http := fun _ => .response 200 (.error "no error body") (.ok body),
    now := fun _ => T,
    save := fun _ => none,
    init := fun _ => .returns afterInit,
    sprintPtr := fun _ => "ptr" }

/-- A token body whose `expires_in` is one second beyond what a `time.Duration` holds. -/
def hugeExpiresIn : Token :=
  { Token.zero with AccessToken := some "abc", ExpiresIn := some 9223372037 }

/-- A token body with `expires_in` 3600. -/
def hourToken : Token :=
  { Token.zero with AccessToken := some "abc", ExpiresIn := some 3600 }

/-- A usable token that expired at instant 0 and carries a refresh token. -/
def staleToken : Token :=
  { Token.zero with AccessToken := some "old", RefreshToken := some "r1", Expiry := some 0 }

/-- A token body with an access token that lives 30 seconds. -/
def shortLivedToken : Token :=
  { Token.zero with AccessToken := some "abc", ExpiresIn := some 30 }

/-- The world of the short-lived answer: the clock reads second 1000, the store holds the
stale token, the token endpoint answers 200 with the 30-second token. -/
def shortLivedWorld : World :=
  worldOf shortLivedToken (1000 * Second) (.row staleToken) none

/-- The world of the hour-long answer: the clock reads second 1000, the store holds the
stale token, the token endpoint answers 200 with the 3600-second token. -/
def hourWorld : World :=
  worldOf hourToken (1000 * Second) (.row staleToken) none

/-- A usable token that expires at second 5000. -/
def freshToken : Token :=
  { Token.zero with AccessToken := some "abc", Expiry := some (5000 * Second) }

/-- An environment that answers every call the same way. -/
def envOf (nr : NilReceiver) (va : ValidateAnswer)
    (sent : Option Response × Option Error) : Env :=
  { newRequest := fun _ url => if url = ":" then some "missing protocol scheme" else none,
    validateToken := fun _ => va,
    doWithRetry := fun _ => sent,
    readAll := fun r => .ok (r.Body.getD ""),
    unmarshal := fun _ => none,
    nilReceiver := nr }

/-- A request config for the given URL with every optional field absent. -/
def configFor (url : String) : RequestConfig :=
  { URL := url, BodyModel := none, ResponseModel := none, ErrorModel := none,
    NonDefaultHeaders := none, SkipAccessToken := none, XWWWFormURLEncoded := none }

/-- A GET request without body whose header set is exactly Accept: application/json. -/
def plainGet (url : String) : Request :=
  { method := "GET", url := url, body := none, header := [("Accept", ["application/json"])] }

/-- The plain GET request of the ping URL. -/
def pingRequest : Request := plainGet "https://api.example.com/ping"

/-- A token whose access token is absent. -/
def noAccessToken : Token := { Token.zero with RefreshToken := some "r1" }

/-- A 200 response with an empty JSON body. -/
def okResponse : Response := { StatusCode := 200, Body := some "" }

/-- A 503 response with a body that is not JSON. -/
def unavailableResponse : Response := { StatusCode := 503, Body := some "<html>" }

/-- An environment whose transport delivers the 503 response and whose JSON decoder
rejects every body. -/
def unavailableEnv : Env :=
  { newRequest := fun _ _ => none,
    validateToken := fun t => .returns none t,
    doWithRetry := fun _ => (some unavailableResponse, none),
    readAll := fun r => .ok (r.Body.getD ""),
    unmarshal := fun _ => some "invalid character",
    nilReceiver := .ignores }

/-- A config without token that supplies an error model. -/
def errorModelConfig : RequestConfig :=
  { configFor "https://api.example.com/ping" with
    ErrorModel := some { isPtr := true }, SkipAccessToken := some true }

/-- A config with a JSON body, the given header overrides, and no token. -/
def overrideConfig (overrides : Header) : RequestConfig :=
  { configFor "https://api.example.com/items" with
    BodyModel := some { json := .ok "\x7b\x7d", form := .ok "" },
    NonDefaultHeaders := some overrides, SkipAccessToken := some true }

/-- The request built for `overrideConfig` by a POST, with the given content type. -/
def itemsRequest (contentType : List String) : Request :=
  { method := "POST", url := "https://api.example.com/items", body := some "\x7b\x7d",
    header := [("Accept", ["application/json"]), ("Content-Type", contentType)] }

/-- A config without body and header overrides, with the skip-token flag set. -/
def skipConfig (url : String) : RequestConfig :=
  { configFor url with SkipAccessToken := some true }

/-! ## Theorems: token predicates -/

section TokenPredicates

/-- C1 (as stated, refuted): a token that has only a non-empty refresh token and no access
token satisfies the usability of the specification, yet `Useable` returns false for it. -/
theorem Useable_refreshOnly_counterexample :
    usableSpec (some refreshOnlyToken) = true ∧ Token.Useable (some refreshOnlyToken) = false := by
  decide

/-- C1 (amended): `Useable` returns true exactly when the token is present, its access token
is present, and the access token is non-empty or the refresh token is present and
non-empty. -/
theorem Useable_iff (t : Option Token) :
    Token.Useable t = true ↔
      ∃ tok a, t = some tok ∧ tok.AccessToken = some a ∧
        (a ≠ "" ∨ ∃ r, tok.RefreshToken = some r ∧ r ≠ "") := by
  constructor
  · intro h
    cases t with
    | none => simp [Token.Useable] at h
    | some tok =>
      cases ha : tok.AccessToken with
      | none => simp [Token.Useable, ha] at h
      | some a =>
        refine ⟨tok, a, rfl, ha, ?_⟩
        by_cases hne : a = ""
        · right
          cases hr : tok.RefreshToken with
          | none => simp [Token.Useable, ha, hne, hr] at h
          | some r =>
            refine ⟨r, by simp [hr], ?_⟩
            intro hr0
            simp [Token.Useable, ha, hne, hr, hr0] at h
        · exact Or.inl hne
  · rintro ⟨tok, a, rfl, ha, h⟩
    rcases h with h | ⟨r, hr, hne⟩
    · simp [Token.Useable, ha, h]
    · by_cases ha0 : a = ""
      · simp [Token.Useable, ha, ha0, hr, hne]
      · simp [Token.Useable, ha, ha0]

/-- C2 (failing input): the token with access token "abc" and no expiry is usable, and
`IsExpired` panics on it at every clock reading instead of returning false. `GetToken`
stores exactly this token when the token endpoint answers 200 without `expires_in`, and
the next `ValidateToken` of the client panics in its expiry check. -/
theorem IsExpired_noExpiry_panics (now : Time) :
    Token.Useable (some noExpiryToken) = true ∧
    Token.IsExpired (some noExpiryToken) now = Pure.panic ∧
    ∃ s1, GetToken (worldOf noExpiryToken now .done none) "u" (startWith none) = .ret none s1 ∧
      s1.oa.Token = some noExpiryToken ∧
      ValidateToken (worldOf noExpiryToken now .done none) s1 = .panic (s1.step []) := by
  refine ⟨by decide, ?_, _, rfl, rfl, rfl⟩
  simp [Token.IsExpired, Token.Useable, noExpiryToken, Token.zero]

end TokenPredicates

/-! ## Theorems: token exchange -/

section TokenExchange

theorem wrap64_of_range (x : Int) (hlo : -9223372036854775808 ≤ x)
    (hhi : x ≤ 9223372036854775807) : wrap64 x = x := by
  have h63 : (2 : Int) ^ 63 = 9223372036854775808 := by norm_num
  have h64 : (2 : Int) ^ 64 = 18446744073709551616 := by norm_num
  simp only [wrap64, h63, h64]
  omega

theorem seconds_of_range (n : Int) (hlo : -9223372036 ≤ n) (hhi : n ≤ 9223372036) :
    mul64 (wrap64 n) Second = n * Second := by
  have hn : wrap64 n = n := wrap64_of_range n (by omega) (by omega)
  simp only [mul64, hn, Second]
  exact wrap64_of_range _ (by omega) (by omega)

/-- C4 (as stated, refuted): the token endpoint answers 200 with `expires_in` 9223372037, a
64-bit integer, at receipt time 0; the stored expiry is not 0 + 9223372037 seconds but an
instant more than 292 years in the past. -/
theorem GetToken_hugeExpiresIn_counterexample :
    ∃ s1, GetToken (worldOf hugeExpiresIn 0 .done none) "u" (startWith none) = .ret none s1 ∧
      hugeExpiresIn.ExpiresIn = some 9223372037 ∧
      (s1.oa.Token.bind fun t => t.Expiry) = some (-9223372036709551616) ∧
      (s1.oa.Token.bind fun t => t.Expiry) ≠ some (0 + 9223372037 * Second) := by
  refine ⟨_, rfl, rfl, ?_, ?_⟩ <;> decide

/-- C4 (amended): when the token endpoint answers 2xx with a decodable body at receipt time
`T`, `GetToken` returns and the client token is the decoded token with expiry exactly
`T + n` seconds if `expires_in` is present with `n` between -9223372036 and 9223372036
(what a `time.Duration` holds), and with absent expiry if `expires_in` is absent. -/
theorem GetToken_expiry (w : World) (url : String) (s : St) (status : Int)
    (apiError : Except String ApiError) (tok : Token)
    (hHttp : w.http s.tick = .response status apiError (.ok tok))
    (hLo : 200 ≤ status) (hHi : status ≤ 299) :
    (∀ n, tok.ExpiresIn = some n → -9223372036 ≤ n → n ≤ 9223372036 →
      ∃ err s1, GetToken w url s = .ret err s1 ∧
        s1.oa.Token = some { tok with Expiry := some (w.now (s.tick + 1) + n * Second) }) ∧
    (tok.ExpiresIn = none →
      ∃ err s1, GetToken w url s = .ret err s1 ∧
        s1.oa.Token = some { tok with Expiry := none }) := by
  have hst : ¬ (status < 200 ∨ status > 299) := by omega
  constructor
  · intro n hn hlo hhi
    have hsec := seconds_of_range n hlo hhi
    cases hsave : w.save (s.tick + 1 + 1) <;>
      simp [GetToken, hHttp, hst, hn, hsec, saveTokenToBigQuery, Res.bind, St.step,
        St.setToken, hsave] <;>
      exact ⟨_, _, ⟨rfl, rfl⟩, rfl⟩
  · intro hn
    cases hsave : w.save (s.tick + 1) <;>
      simp [GetToken, hHttp, hst, hn, saveTokenToBigQuery, Res.bind, St.step,
        St.setToken, hsave] <;>
      exact ⟨_, _, ⟨rfl, rfl⟩, rfl⟩

theorem GetToken_expiry_witness :
    (∃ err s1, GetToken (worldOf hourToken 7 .done none) "u" (startWith none) = .ret err s1 ∧
        s1.oa.Token = some { hourToken with Expiry := some (7 + 3600 * Second) }) :=
  (GetToken_expiry (worldOf hourToken 7 .done none) "u" (startWith none) 200
    (.error "no error body") hourToken rfl (by decide) (by decide)).1 3600 rfl
    (by decide) (by decide)

end TokenExchange

/-! ## Theorems: ValidateToken -/

section Validate

theorem Res.bind_eq_ret {α β : Type} (r : Res α) (k : α → St → Res β) (b : β) (s1 : St) :
    Res.bind r k = .ret b s1 ↔ ∃ a s0, r = .ret a s0 ∧ k a s0 = .ret b s1 := by
  cases r with
  | ret a s0 =>
    constructor
    · intro h
      exact ⟨a, s0, rfl, h⟩
    · rintro ⟨a1, s2, heq, h⟩
      cases heq
      exact h
  | panic s0 => simp [Res.bind]
  | blocks s0 => simp [Res.bind]

theorem IsExpired_noError_useable (t : Option Token) (now : Time) (b : Bool)
    (h : Token.IsExpired t now = .ret (b, none)) : Token.Useable t = true := by
  by_contra hU
  simp [Token.IsExpired, hU] at h

/-- C5 (as stated, refuted): the client starts with a usable, expired token; the refresh
exchange answers 200 with `expires_in` 30. `ValidateToken` returns no error, and the
client token it leaves is already expired at the very instant it was received. -/
theorem ValidateToken_shortLived_counterexample :
    ∃ s1, ValidateToken shortLivedWorld (startWith (some staleToken)) = .ret none s1 ∧
      Token.IsExpired s1.oa.Token (1000 * Second) = .ret (true, none) := by
  refine ⟨_, rfl, ?_⟩
  decide

/-- C5 (amended): `ValidateToken` returns without an error exactly in the following runs.
Let `s0` be the state its first block leaves: the entry state when the entry token is
usable; otherwise the state `getTokenFromRefreshToken` returns without error, followed,
if that token is still not usable, by the alert (in live mode) and an `initToken` that
returns. Then either the expiry check on `s0` finds the token usable and not expired, the
check is the last step and that token is the current token on return; or the check on `s0`
finds a usable token expired and the run ends with `getTokenFromRefreshToken` returning
no error from there, whose resulting token is not examined again. -/
theorem ValidateToken_ok (w : World) (s s1 : St) :
    ValidateToken w s = .ret none s1 ↔
    ∃ s0 : St,
      ((Token.Useable s.oa.Token = true ∧ s0 = s) ∨
       (Token.Useable s.oa.Token = false ∧ ∃ sa : St,
          getTokenFromRefreshToken w s = .ret none sa ∧
          ((Token.Useable sa.oa.Token = true ∧ s0 = sa) ∨
           (Token.Useable sa.oa.Token = false ∧
             initToken w (if sa.oa.isLive = true then
                 { sa with log := sa.log ++
                     [Ev.alert "Refreshtoken not found or empty, login needed to retrieve a new one."] }
               else sa) = .ret none s0)))) ∧
      ((Token.IsExpired s0.oa.Token (w.now s0.tick) = .ret (false, none) ∧
          s1 = s0.step [] ∧ Token.Useable s1.oa.Token = true ∧
          Token.IsExpired s1.oa.Token (w.now s0.tick) = .ret (false, none)) ∨
       (Token.Useable s0.oa.Token = true ∧
          Token.IsExpired s0.oa.Token (w.now s0.tick) = .ret (true, none) ∧
          getTokenFromRefreshToken w (s0.step []) = .ret none s1)) := by
  constructor
  · intro h
    rw [ValidateToken] at h
    obtain ⟨err, s3, hfirst, htail⟩ := (Res.bind_eq_ret _ _ _ _).1 h
    cases err with
    | some e => simp at htail
    | none =>
      refine ⟨s3, ?_, ?_⟩
      · by_cases hU : Token.Useable s.oa.Token = true
        · left
          simp only [hU, Bool.not_true, Bool.false_eq_true, if_false, Res.ret.injEq,
            true_and] at hfirst
          exact ⟨hU, hfirst.symm⟩
        · right
          have hUf : Token.Useable s.oa.Token = false := Bool.eq_false_iff.mpr hU
          simp only [hUf, Bool.not_false, if_true] at hfirst
          obtain ⟨a, sa, hg, hk⟩ := (Res.bind_eq_ret _ _ _ _).1 hfirst
          cases a with
          | some e => simp at hk
          | none =>
            refine ⟨hUf, sa, hg, ?_⟩
            simp only at hk
            by_cases hUa : Token.Useable sa.oa.Token = true
            · left
              simp only [hUa, Bool.not_true, Bool.false_eq_true, if_false, Res.ret.injEq,
                true_and] at hk
              exact ⟨hUa, hk.symm⟩
            · right
              have hUaf : Token.Useable sa.oa.Token = false := Bool.eq_false_iff.mpr hUa
              simp only [hUaf, Bool.not_false, if_true] at hk
              exact ⟨hUaf, hk⟩
      · simp only at htail
        cases hx : Token.IsExpired s3.oa.Token (w.now s3.tick) with
        | panic => simp [hx] at htail
        | ret p =>
          obtain ⟨b, e⟩ := p
          cases e with
          | some e => simp [hx] at htail
          | none =>
            have hU := IsExpired_noError_useable _ _ _ hx
            cases b with
            | true =>
              right
              refine ⟨hU, rfl, ?_⟩
              simp only [hx] at htail
              obtain ⟨e2, s5, hr, hk⟩ := (Res.bind_eq_ret _ _ _ _).1 htail
              cases e2 with
              | some e => simp at hk
              | none =>
                simp only [Res.ret.injEq, true_and] at hk
                rw [← hk]; exact hr
            | false =>
              left
              simp only [hx] at htail
              simp only [Bool.false_eq_true, if_false, Res.ret.injEq, true_and] at htail
              subst htail
              exact ⟨rfl, rfl, hU, hx⟩
  · rintro ⟨s0, hphase, htail⟩
    rw [ValidateToken]
    refine (Res.bind_eq_ret _ _ _ _).2 ⟨none, s0, ?_, ?_⟩
    · rcases hphase with ⟨hU, rfl⟩ | ⟨hUf, sa, hg, hrest⟩
      · simp [hU]
      · simp only [hUf, Bool.not_false, if_true]
        refine (Res.bind_eq_ret _ _ _ _).2 ⟨none, sa, hg, ?_⟩
        rcases hrest with ⟨hUa, rfl⟩ | ⟨hUaf, hi⟩
        · simp [hUa]
        · simp only [hUaf, Bool.not_false, if_true]
          exact hi
    · rcases htail with ⟨hx, rfl, _, _⟩ | ⟨_, hx, hr⟩
      · simp [hx]
      · simp only [hx, if_true]
        exact (Res.bind_eq_ret _ _ _ _).2 ⟨none, s1, hr, rfl⟩

theorem ValidateToken_ok_witness :
    (∃ s0 : St,
      ((Token.Useable (startWith (some freshToken)).oa.Token = true ∧
          s0 = startWith (some freshToken)) ∨
       (Token.Useable (startWith (some freshToken)).oa.Token = false ∧ ∃ sa : St,
          getTokenFromRefreshToken shortLivedWorld (startWith (some freshToken)) =
            .ret none sa ∧
          ((Token.Useable sa.oa.Token = true ∧ s0 = sa) ∨
           (Token.Useable sa.oa.Token = false ∧
             initToken shortLivedWorld (if sa.oa.isLive = true then
                 { sa with log := sa.log ++
                     [Ev.alert "Refreshtoken not found or empty, login needed to retrieve a new one."] }
               else sa) = .ret none s0)))) ∧
      ((Token.IsExpired s0.oa.Token (shortLivedWorld.now s0.tick) = .ret (false, none) ∧
          (startWith (some freshToken)).step [] = s0.step [] ∧
          Token.Useable ((startWith (some freshToken)).step []).oa.Token = true ∧
          Token.IsExpired ((startWith (some freshToken)).step []).oa.Token
            (shortLivedWorld.now s0.tick) = .ret (false, none)) ∨
       (Token.Useable s0.oa.Token = true ∧
          Token.IsExpired s0.oa.Token (shortLivedWorld.now s0.tick) = .ret (true, none) ∧
          getTokenFromRefreshToken shortLivedWorld (s0.step []) =
            .ret none ((startWith (some freshToken)).step [])))) ∧
    ValidateToken hourWorld (startWith (some refreshOnlyToken)) =
      .ret none (GetToken hourWorld (refreshURL hourWorld (clientWith (some staleToken)))
        ((startWith (some refreshOnlyToken)).step [Ev.load] |>.setToken (some staleToken))
        |>.state |>.step []) :=
  ⟨(ValidateToken_ok shortLivedWorld (startWith (some freshToken))
      ((startWith (some freshToken)).step [])).1 (by decide),
   (ValidateToken_ok hourWorld (startWith (some refreshOnlyToken)) _).2
      ⟨(GetToken hourWorld (refreshURL hourWorld (clientWith (some staleToken)))
        ((startWith (some refreshOnlyToken)).step [Ev.load] |>.setToken (some staleToken))).state,
       Or.inr ⟨by decide, _, rfl, Or.inl ⟨by decide, rfl⟩⟩,
       Or.inl ⟨by decide, rfl, by decide, by decide⟩⟩⟩

end Validate

/-! ## Theorems: header assembly -/

section Headers

theorem Values_nil (k : String) : Header.Values [] k = [] := rfl

theorem Values_Del (h : Header) (k1 k : String) :
    Header.Values (Header.Del h k1) k =
      if CanonicalMIMEHeaderKey k = CanonicalMIMEHeaderKey k1 then [] else Header.Values h k := by
  induction h with
  | nil => simp [Header.Del, Header.Values]
  | cons e rest ih =>
    simp only [Header.Del, Header.Values] at ih ⊢
    by_cases h1 : e.1 = CanonicalMIMEHeaderKey k1
    · by_cases h2 : CanonicalMIMEHeaderKey k = CanonicalMIMEHeaderKey k1
      · simp [List.filter_cons, h1, h2] at ih ⊢
        exact ih
      · have h3 : ¬ CanonicalMIMEHeaderKey k1 = CanonicalMIMEHeaderKey k := fun h => h2 h.symm
        simp [List.filter_cons, List.find?_cons, h1, h2, h3] at ih ⊢
        exact ih
    · by_cases h2 : CanonicalMIMEHeaderKey k = CanonicalMIMEHeaderKey k1
      · have h3 : ¬ e.1 = CanonicalMIMEHeaderKey k := by rw [h2]; exact h1
        simp [List.filter_cons, List.find?_cons, h1, h2, h3] at ih ⊢
        exact ih
      · by_cases h4 : e.1 = CanonicalMIMEHeaderKey k
        · simp [List.filter_cons, List.find?_cons, h1, h2, h4]
        · simp [List.filter_cons, List.find?_cons, h1, h2, h4] at ih ⊢
          exact ih

theorem Values_append_single (h : Header) (k1 : String) (vs : List String) (k : String)
    (hk : h.any (fun e => e.1 == k1) = false) :
    Header.Values (h ++ [(k1, vs)]) k =
      if CanonicalMIMEHeaderKey k = k1 then vs else Header.Values h k := by
  induction h with
  | nil =>
    by_cases h2 : CanonicalMIMEHeaderKey k = k1
    · simp [Header.Values, h2]
    · have h3 : ¬ k1 = CanonicalMIMEHeaderKey k := fun h => h2 h.symm
      simp [Header.Values, h2, h3]
  | cons e rest ih =>
    simp only [List.any_cons, Bool.or_eq_false_iff, beq_eq_false_iff_ne, ne_eq] at hk
    have ih1 := ih hk.2
    simp only [Header.Values] at ih1 ⊢
    by_cases h4 : e.1 = CanonicalMIMEHeaderKey k
    · have h2 : ¬ CanonicalMIMEHeaderKey k = k1 := by rw [← h4]; exact hk.1
      simp [List.find?_cons, h4, h2]
    · simp [List.find?_cons, h4] at ih1 ⊢
      exact ih1

theorem Values_Set (h : Header) (k1 v k : String) :
    Header.Values (Header.Set h k1 v) k =
      if CanonicalMIMEHeaderKey k = CanonicalMIMEHeaderKey k1 then [v] else Header.Values h k := by
  have hany : (Header.Del h k1).any (fun e => e.1 == CanonicalMIMEHeaderKey k1) = false := by
    simp [Header.Del, List.any_filter]
  rw [Header.Set, Values_append_single _ _ _ _ hany, Values_Del]
  by_cases h2 : CanonicalMIMEHeaderKey k = CanonicalMIMEHeaderKey k1 <;> simp [h2]

theorem Values_map_other (h : Header) (k1 v k : String)
    (h2 : ¬ CanonicalMIMEHeaderKey k = CanonicalMIMEHeaderKey k1) :
    Header.Values
      (h.map (fun e => if e.1 == CanonicalMIMEHeaderKey k1 then (e.1, e.2 ++ [v]) else e)) k =
      Header.Values h k := by
  have h3 : ¬ CanonicalMIMEHeaderKey k1 = CanonicalMIMEHeaderKey k := fun h => h2 h.symm
  induction h with
  | nil => simp [Header.Values]
  | cons e rest ih =>
    simp only [Header.Values] at ih ⊢
    by_cases h1 : e.1 = CanonicalMIMEHeaderKey k1
    · simp [List.find?_cons, h1, h3] at ih ⊢
      exact ih
    · by_cases h4 : e.1 = CanonicalMIMEHeaderKey k
      · simp [List.find?_cons, h4, h2]
      · simp [List.find?_cons, h1, h4] at ih ⊢
        exact ih

theorem Values_map_same (h : Header) (k1 v k : String)
    (h2 : CanonicalMIMEHeaderKey k = CanonicalMIMEHeaderKey k1)
    (hany : h.any (fun e => e.1 == CanonicalMIMEHeaderKey k1) = true) :
    Header.Values
      (h.map (fun e => if e.1 == CanonicalMIMEHeaderKey k1 then (e.1, e.2 ++ [v]) else e)) k =
      Header.Values h k ++ [v] := by
  induction h with
  | nil => simp at hany
  | cons e rest ih =>
    by_cases h1 : e.1 = CanonicalMIMEHeaderKey k1
    · simp [Header.Values, List.find?_cons, h1, h2]
    · have hb : (e.1 == CanonicalMIMEHeaderKey k1) = false := by simpa using h1
      have hrest : rest.any (fun e => e.1 == CanonicalMIMEHeaderKey k1) = true := by
        simpa [List.any_cons, hb] using hany
      have ih1 := ih hrest
      simp only [Header.Values] at ih1 ⊢
      simp [List.find?_cons, h1, h2] at ih1 ⊢
      exact ih1

theorem Values_Add (h : Header) (k1 v k : String) :
    Header.Values (Header.Add h k1 v) k =
      if CanonicalMIMEHeaderKey k = CanonicalMIMEHeaderKey k1 then Header.Values h k ++ [v]
      else Header.Values h k := by
  unfold Header.Add
  by_cases hany : h.any (fun e => e.1 == CanonicalMIMEHeaderKey k1) = true
  · rw [if_pos hany]
    by_cases h2 : CanonicalMIMEHeaderKey k = CanonicalMIMEHeaderKey k1
    · rw [Values_map_same _ _ _ _ h2 hany, if_pos h2]
    · rw [Values_map_other _ _ _ _ h2, if_neg h2]
  · rw [if_neg hany]
    have hany1 : h.any (fun e => e.1 == CanonicalMIMEHeaderKey k1) = false :=
      Bool.eq_false_iff.mpr hany
    rw [Values_append_single _ _ _ _ hany1]
    by_cases h2 : CanonicalMIMEHeaderKey k = CanonicalMIMEHeaderKey k1
    · have hnone : Header.Values h k = [] := by
        simp only [Header.Values, h2]
        have : h.find? (fun e => e.1 == CanonicalMIMEHeaderKey k1) = none := by
          rw [List.find?_eq_none]
          intro x hx
          simp only [List.any_eq_false] at hany1
          exact hany1 x hx
        rw [this]
      simp [h2, hnone]
    · simp [h2]

theorem Values_foldl_Add (vs : List String) (h : Header) (k1 k : String) :
    Header.Values (vs.foldl (fun a value => Header.Add a k1 value) h) k =
      if CanonicalMIMEHeaderKey k = CanonicalMIMEHeaderKey k1 then Header.Values h k ++ vs
      else Header.Values h k := by
  induction vs generalizing h with
  | nil => simp
  | cons v rest ih =>
    rw [List.foldl_cons, ih, Values_Add]
    by_cases h2 : CanonicalMIMEHeaderKey k = CanonicalMIMEHeaderKey k1 <;> simp [h2]

theorem Values_overrule_other (overrides : Header) (h : Header) (k : String)
    (hno : ∀ e ∈ overrides, CanonicalMIMEHeaderKey e.1 ≠ CanonicalMIMEHeaderKey k) :
    Header.Values (overrule h overrides) k = Header.Values h k := by
  induction overrides generalizing h with
  | nil => rfl
  | cons kv rest ih =>
    have hkv : ¬ CanonicalMIMEHeaderKey k = CanonicalMIMEHeaderKey kv.1 :=
      fun hh => hno kv (List.mem_cons_self _ _) hh.symm
    unfold overrule at ih ⊢
    rw [List.foldl_cons, ih _ (fun e he => hno e (List.mem_cons_of_mem _ he)),
      Values_foldl_Add, if_neg hkv, Values_Del, if_neg hkv]

theorem Values_overrule_entry (pre post : Header) (h : Header) (k : String) (vs : List String)
    (hpost : ∀ e ∈ post, CanonicalMIMEHeaderKey e.1 ≠ CanonicalMIMEHeaderKey k) :
    Header.Values (overrule h (pre ++ (k, vs) :: post)) k = vs := by
  have hstep : overrule h (pre ++ (k, vs) :: post) =
      overrule (vs.foldl (fun a value => Header.Add a k value)
        (Header.Del (overrule h pre) k)) post := by
    simp [overrule, List.foldl_append]
  rw [hstep, Values_overrule_other _ _ _ hpost, Values_foldl_Add, if_pos rfl, Values_Del,
    if_pos rfl]
  simp

end Headers

/-! ## Theorems: the request pipeline -/

section PipelineTheorems

/-- C7 (failing input): the skip-token flag is not set, token validation returns no error,
and the client token is absent or has no access token. Whatever the transport would
answer and whether the error setter ignores its nil receiver or dereferences it, the
pipeline never returns a non-nil error: it returns the request with a nil response and a
nil error, or it panics. -/
theorem missing_token_returns_nil_error (sent : Option Response × Option Error) (t : Token) :
    (Get (envOf .ignores (.returns none none) sent) none
        (some (configFor "https://api.example.com/ping"))).outcome =
      .returned (some pingRequest) none none ∧
    (Get (envOf .ignores (.returns none (some { t with AccessToken := none })) sent) (some t)
        (some (configFor "https://api.example.com/ping"))).outcome =
      .returned (some pingRequest) none none ∧
    (Get (envOf .panics (.returns none none) sent) none
        (some (configFor "https://api.example.com/ping"))).outcome = .panicked ∧
    (Get (envOf .panics (.returns none (some { t with AccessToken := none })) sent) (some t)
        (some (configFor "https://api.example.com/ping"))).outcome = .panicked := by
  have hurl : ("https://api.example.com/ping" = ":") = False := by decide
  have hh : assembleHeaders (configFor "https://api.example.com/ping") none =
      [("Accept", ["application/json"])] := by decide
  refine ⟨?_, ?_, ?_, ?_⟩ <;>
    simp [Get, httpRequest, httpRequestFromReader, envOf, configFor, hurl, setMessageExit,
      SetMessage, exitLabel, pingRequest, plainGet] <;>
    exact hh

theorem tokenSkipped_run (env : Env) (config : RequestConfig) (request : Request)
    (token : Option Token) (log : List PEv) :
    (tokenSkipped env config request token log).token = token ∧
    ((tokenSkipped env config request token log).log = log ++ [PEv.send request] ∨
      ∃ e, (tokenSkipped env config request token log).log =
        log ++ [PEv.send request, PEv.captureInfo e]) := by
  unfold tokenSkipped
  generalize env.doWithRetry request = sent
  obtain ⟨resp, e0⟩ := sent
  cases resp with
  | none => exact ⟨rfl, Or.inl rfl⟩
  | some r =>
    simp only []
    cases r.Body with
    | none => exact ⟨rfl, Or.inl rfl⟩
    | some b =>
      simp only []
      split
      · cases config.ErrorModel with
        | none => exact ⟨rfl, Or.inl rfl⟩
        | some m => exact ⟨rfl, Or.inr ⟨unmarshalError env (some r) m, by simp⟩⟩
      · cases config.ResponseModel with
        | none => exact ⟨rfl, Or.inl rfl⟩
        | some m =>
          simp only []
          cases env.readAll r with
          | error err => exact ⟨rfl, Or.inl rfl⟩
          | ok bs =>
            simp only []
            cases env.unmarshal bs with
            | none => exact ⟨rfl, Or.inl rfl⟩
            | some err => exact ⟨rfl, Or.inl rfl⟩

theorem tokenSkipped_send (env : Env) (config : RequestConfig) (request : Request)
    (token : Option Token) (log : List PEv) (req : Request) :
    PEv.send req ∈ (tokenSkipped env config request token log).log ↔
      PEv.send req ∈ log ∨ req = request := by
  rcases (tokenSkipped_run env config request token log).2 with h | ⟨e, h⟩ <;>
    rw [h] <;> simp

theorem tokenSkipped_validate (env : Env) (config : RequestConfig) (request : Request)
    (token : Option Token) (log : List PEv) :
    PEv.validate ∈ (tokenSkipped env config request token log).log ↔ PEv.validate ∈ log := by
  rcases (tokenSkipped_run env config request token log).2 with h | ⟨e, h⟩ <;>
    rw [h] <;> simp

theorem tokenSkipped_status (env : Env) (config : RequestConfig) (request : Request)
    (token : Option Token) (log : List PEv) (r : Response) (e0 : Option Error)
    (hresp : env.doWithRetry request = (some r, e0))
    (hst : r.StatusCode < 200 ∨ 299 < r.StatusCode) :
    (tokenSkipped env config request token log).outcome =
      .returned (some request) (some r)
        (some { message := some ("Server returned statuscode " ++ toString r.StatusCode),
                request := some request, response := some r }) := by
  have hst1 : (r.StatusCode < 200 ∨ r.StatusCode > 299) := by omega
  unfold tokenSkipped
  simp only [hresp]
  cases hbody : r.Body with
  | none => simp [hst1, exitLabel]
  | some b => simp [hst1, exitLabel]

/-- What `httpRequestFromReader` hands to the transport: the request it built from the
method, the URL, the reader and the assembled headers, with or without the bearer header. -/
theorem fromReader_sent (env : Env) (token : Option Token) (httpMethod : String)
    (config : RequestConfig) (reader : Option String) (req : Request)
    (hsent : PEv.send req ∈ (httpRequestFromReader env token httpMethod config reader).log) :
    ∃ tok lg, httpRequestFromReader env token httpMethod config reader =
        tokenSkipped env config req tok lg ∧
      req.method = httpMethod ∧ req.url = config.URL ∧ req.body = reader ∧
      (req.header = assembleHeaders config reader ∨
        ∃ a, req.header = Header.Set (assembleHeaders config reader) "Authorization" a) := by
  unfold httpRequestFromReader at hsent ⊢
  cases hnew : env.newRequest httpMethod config.URL with
  | some err => simp [hnew] at hsent
  | none =>
    simp only [hnew] at hsent ⊢
    by_cases hskip : config.SkipAccessToken = some true
    · simp only [hskip, if_true] at hsent ⊢
      rw [tokenSkipped_send] at hsent
      rcases hsent with h | h
      · simp at h
      · subst h
        exact ⟨_, _, rfl, rfl, rfl, rfl, Or.inl rfl⟩
    · simp only [hskip, if_false] at hsent ⊢
      cases hv : env.validateToken token with
      | panics => simp [hv] at hsent
      | blocks => simp [hv] at hsent
      | returns e tok =>
        simp only [hv] at hsent ⊢
        cases e with
        | some er => simp at hsent
        | none =>
          cases tok with
          | none => simp at hsent
          | some t =>
            cases ha : t.AccessToken with
            | none => simp [ha] at hsent
            | some a =>
              simp only [ha] at hsent ⊢
              rw [tokenSkipped_send] at hsent
              rcases hsent with h | h
              · simp at h
              · subst h
                exact ⟨_, _, rfl, rfl, rfl, rfl, Or.inr ⟨_, rfl⟩⟩

/-- Every request that `httpRequest` sends comes from `httpRequestFromReader`. -/
theorem httpRequest_sent (env : Env) (token : Option Token) (httpMethod : String)
    (config : Option RequestConfig) (req : Request)
    (hsent : PEv.send req ∈ (httpRequest env token httpMethod config).log) :
    ∃ cfg reader, config = some cfg ∧
      httpRequest env token httpMethod config =
        httpRequestFromReader env token httpMethod cfg reader ∧
      (reader = none ↔ cfg.BodyModel = none) := by
  unfold httpRequest at hsent ⊢
  cases config with
  | none => simp at hsent
  | some cfg =>
    simp only at hsent ⊢
    cases hb : cfg.BodyModel with
    | none => exact ⟨cfg, none, rfl, rfl, by simp [hb]⟩
    | some bm =>
      simp only [hb] at hsent ⊢
      by_cases hx : cfg.XWWWFormURLEncoded = some true
      · simp only [hx, if_true] at hsent ⊢
        cases hf : bm.form with
        | error e => simp [hf] at hsent
        | ok url => exact ⟨cfg, some url, rfl, rfl, by simp [hb]⟩
      · simp only [hx, if_false] at hsent ⊢
        cases hj : bm.json with
        | error e => simp [hj] at hsent
        | ok b => exact ⟨cfg, some b, rfl, rfl, by simp [hb]⟩

/-- C8: whenever the pipeline has sent a request and the transport delivers a response
whose status code is outside [200,299], the pipeline returns a non-nil error whose message
is "Server returned statuscode" followed by that code, with the request and the response
attached, whatever the error model is and whatever reading or decoding the body gives. -/
theorem status_error_returned (env : Env) (token : Option Token) (httpMethod : String)
    (config : Option RequestConfig) (req : Request) (r : Response) (e0 : Option Error)
    (hsent : PEv.send req ∈ (httpRequest env token httpMethod config).log)
    (hresp : env.doWithRetry req = (some r, e0))
    (hst : r.StatusCode < 200 ∨ 299 < r.StatusCode) :
    (httpRequest env token httpMethod config).outcome =
      .returned (some req) (some r)
        (some { message := some ("Server returned statuscode " ++ toString r.StatusCode),
                request := some req, response := some r }) := by
  obtain ⟨cfg, reader, _, hrun, _⟩ := httpRequest_sent env token httpMethod config req hsent
  rw [hrun] at hsent ⊢
  obtain ⟨tok, lg, hts, _⟩ := fromReader_sent env token httpMethod cfg reader req hsent
  rw [hts]
  exact tokenSkipped_status env cfg req tok lg r e0 hresp hst

theorem status_error_returned_witness :
    (Get unavailableEnv none (some errorModelConfig)).outcome =
      .returned (some pingRequest) (some unavailableResponse)
        (some { message := some ("Server returned statuscode " ++ toString (503 : Int)),
                request := some pingRequest, response := some unavailableResponse }) :=
  status_error_returned unavailableEnv none "GET" (some errorModelConfig) pingRequest
    unavailableResponse none (by decide) rfl (by decide)

theorem defaults_with_body :
    Header.Values (Header.Set (Header.Set [] "Accept" "application/json")
        "Content-Type" "application/json") "Accept" = ["application/json"] ∧
    Header.Values (Header.Set (Header.Set [] "Accept" "application/json")
        "Content-Type" "application/json") "Content-Type" = ["application/json"] := by
  decide

/-- C9 (as stated, refuted): the caller's header map has the keys "content-type" with value
text/plain and "Content-Type" with value text/html, both overrides of the default
Content-Type of a request with a body. Whichever key the loop visits first, the request
sent carries the values of the other one only. -/
theorem colliding_overrides_counterexample :
    (Post (envOf .ignores (.returns none none) (some okResponse, none)) none
        (some (overrideConfig [("content-type", ["text/plain"]),
          ("Content-Type", ["text/html"])]))).log = [PEv.send (itemsRequest ["text/html"])] ∧
    Header.Values (itemsRequest ["text/html"]).header "content-type" ≠ ["text/plain"] ∧
    (Post (envOf .ignores (.returns none none) (some okResponse, none)) none
        (some (overrideConfig [("Content-Type", ["text/html"]),
          ("content-type", ["text/plain"])]))).log = [PEv.send (itemsRequest ["text/plain"])] ∧
    Header.Values (itemsRequest ["text/plain"]).header "Content-Type" ≠ ["text/html"] := by
  decide

/-- C9 (amended): in every request the pipeline sends, an override of Accept or
Content-Type with values `vs` is carried as exactly `vs` under that name, not the default,
provided no override visited after it has the same canonical name (that is, no other key
of the caller's map denotes the same header); and a default header (Accept, and
Content-Type when a body is present) that no override names keeps its default value. -/
theorem header_precedence (env : Env) (token : Option Token) (httpMethod : String)
    (cfg : RequestConfig) (req : Request)
    (hsent : PEv.send req ∈ (httpRequest env token httpMethod (some cfg)).log) :
    (∀ pre k vs post, cfg.NonDefaultHeaders = some (pre ++ (k, vs) :: post) →
        (CanonicalMIMEHeaderKey k = "Accept" ∨ CanonicalMIMEHeaderKey k = "Content-Type") →
        (∀ e ∈ post, CanonicalMIMEHeaderKey e.1 ≠ CanonicalMIMEHeaderKey k) →
        Header.Values req.header k = vs) ∧
    ((∀ overrides, cfg.NonDefaultHeaders = some overrides →
        ∀ e ∈ overrides, CanonicalMIMEHeaderKey e.1 ≠ "Accept") →
      Header.Values req.header "Accept" = ["application/json"]) ∧
    ((∀ overrides, cfg.NonDefaultHeaders = some overrides →
        ∀ e ∈ overrides, CanonicalMIMEHeaderKey e.1 ≠ "Content-Type") →
      cfg.BodyModel ≠ none →
      Header.Values req.header "Content-Type" = ["application/json"]) := by
  obtain ⟨cfg1, reader, hcfg, hrun, hreader⟩ :=
    httpRequest_sent env token httpMethod (some cfg) req hsent
  cases hcfg
  rw [hrun] at hsent
  obtain ⟨tok, lg, _, _, _, _, hhdr⟩ := fromReader_sent env token httpMethod cfg reader req hsent
  have hAuth : ∀ k, CanonicalMIMEHeaderKey k ≠ "Authorization" →
      Header.Values req.header k = Header.Values (assembleHeaders cfg reader) k := by
    intro k hk
    rcases hhdr with h | ⟨a, h⟩
    · rw [h]
    · rw [h, Values_Set]
      have hc : CanonicalMIMEHeaderKey "Authorization" = "Authorization" := by decide
      rw [hc, if_neg hk]
  have hA : CanonicalMIMEHeaderKey "Accept" = "Accept" := by decide
  have hC : CanonicalMIMEHeaderKey "Content-Type" = "Content-Type" := by decide
  refine ⟨?_, ?_, ?_⟩
  · intro pre k vs post hov hk hpost
    have hne : CanonicalMIMEHeaderKey k ≠ "Authorization" := by
      rcases hk with h | h <;> rw [h] <;> decide
    rw [hAuth k hne]
    simp only [assembleHeaders, hov]
    exact Values_overrule_entry pre post _ k vs hpost
  · intro hno
    rw [hAuth "Accept" (by decide)]
    cases hov : cfg.NonDefaultHeaders with
    | none =>
      simp only [assembleHeaders, hov]
      cases reader with
      | none => decide
      | some b => exact defaults_with_body.1
    | some overrides =>
      simp only [assembleHeaders, hov]
      rw [Values_overrule_other _ _ _ (by rw [hA]; exact hno overrides hov)]
      cases reader with
      | none => decide
      | some b => exact defaults_with_body.1
  · intro hno hbody
    rw [hAuth "Content-Type" (by decide)]
    obtain ⟨b, hb⟩ : ∃ b, reader = some b := by
      cases reader with
      | none => exact absurd (hreader.1 rfl) hbody
      | some b => exact ⟨b, rfl⟩
    subst hb
    cases hov : cfg.NonDefaultHeaders with
    | none =>
      simp only [assembleHeaders, hov]
      exact defaults_with_body.2
    | some overrides =>
      simp only [assembleHeaders, hov]
      rw [Values_overrule_other _ _ _ (by rw [hC]; exact hno overrides hov)]
      exact defaults_with_body.2

theorem header_precedence_witness :
    Header.Values (itemsRequest ["text/plain"]).header "Content-Type" = ["text/plain"] ∧
    Header.Values (itemsRequest ["text/plain"]).header "Accept" = ["application/json"] :=
  ⟨(header_precedence (envOf .ignores (.returns none none) (some okResponse, none)) none "POST"
      (overrideConfig [("Content-Type", ["text/plain"])]) (itemsRequest ["text/plain"])
      (by decide)).1 [] "Content-Type" ["text/plain"] [] rfl (Or.inr (by decide))
      (by simp),
   (header_precedence (envOf .ignores (.returns none none) (some okResponse, none)) none "POST"
      (overrideConfig [("Content-Type", ["text/plain"])]) (itemsRequest ["text/plain"])
      (by decide)).2.1 (by
        intro overrides hov e he
        have h : overrides = [("Content-Type", ["text/plain"])] := by
          simpa [overrideConfig, configFor] using hov.symm
        subst h
        simp only [List.mem_singleton] at he
        subst he
        decide)⟩

/-- C10 (as stated, refuted): the config has no body model, no header overrides, the
skip-token flag set and the URL ":", which `http.NewRequest` rejects. `Get` sends nothing:
it returns a nil request (or panics in the error setter). -/
theorem Get_bad_url_counterexample :
    Get (envOf .ignores (.returns none none) (some okResponse, none)) none
        (some (skipConfig ":")) =
      { outcome := .returned none none none, token := none, log := [] } ∧
    Get (envOf .panics (.returns none none) (some okResponse, none)) none
        (some (skipConfig ":")) =
      { outcome := .panicked, token := none, log := [] } := by
  decide

/-- C10 (amended): for every config with no body model, no header overrides (the header map
absent or empty) and the skip-token flag set whose URL `http.NewRequest` accepts, and for
every client token, `Get` sends exactly one request, a GET of that URL without body whose
header set is exactly Accept: application/json; `ValidateToken` is not invoked and the
client token is unchanged. -/
theorem Get_skip_token (env : Env) (token : Option Token) (cfg : RequestConfig)
    (hbody : cfg.BodyModel = none)
    (hhdr : cfg.NonDefaultHeaders = none ∨ cfg.NonDefaultHeaders = some [])
    (hskip : cfg.SkipAccessToken = some true)
    (hurl : env.newRequest "GET" cfg.URL = none) :
    PEv.send (plainGet cfg.URL) ∈ (Get env token (some cfg)).log ∧
    (∀ req, PEv.send req ∈ (Get env token (some cfg)).log → req = plainGet cfg.URL) ∧
    PEv.validate ∉ (Get env token (some cfg)).log ∧
    (Get env token (some cfg)).token = token := by
  have hrun : Get env token (some cfg) = tokenSkipped env cfg (plainGet cfg.URL) token [] := by
    have hh : assembleHeaders cfg none = [("Accept", ["application/json"])] := by
      rcases hhdr with h | h <;>
        · simp only [assembleHeaders, h]
          decide
    simp [Get, httpRequest, hbody, httpRequestFromReader, hurl, hskip, hh, plainGet]
  rw [hrun]
  refine ⟨?_, ?_, ?_, ?_⟩
  · rw [tokenSkipped_send]; exact Or.inr rfl
  · intro req hreq
    rw [tokenSkipped_send] at hreq
    rcases hreq with h | h
    · simp at h
    · exact h
  · rw [tokenSkipped_validate]; simp
  · exact (tokenSkipped_run _ _ _ _ _).1

theorem Get_skip_token_witness :
    PEv.send pingRequest ∈
      (Get (envOf .ignores .panics (some okResponse, none)) (some staleToken)
        (some (skipConfig "https://api.example.com/ping"))).log ∧
    PEv.validate ∉
      (Get (envOf .ignores .panics (some okResponse, none)) (some staleToken)
        (some (skipConfig "https://api.example.com/ping"))).log ∧
    (Get (envOf .ignores .panics (some okResponse, none)) (some staleToken)
        (some (skipConfig "https://api.example.com/ping"))).token = some staleToken :=
  ⟨(Get_skip_token (envOf .ignores .panics (some okResponse, none)) (some staleToken)
      (skipConfig "https://api.example.com/ping") rfl (Or.inl rfl) rfl (by decide)).1,
   (Get_skip_token (envOf .ignores .panics (some okResponse, none)) (some staleToken)
      (skipConfig "https://api.example.com/ping") rfl (Or.inl rfl) rfl (by decide)).2.2.1,
   (Get_skip_token (envOf .ignores .panics (some okResponse, none)) (some staleToken)
      (skipConfig "https://api.example.com/ping") rfl (Or.inl rfl) rfl (by decide)).2.2.2⟩

end PipelineTheorems

end GoOAuth2
